/-
Verification of the BankistApp page-behavior layer (src/script.js).

The script is a collection of independent DOM event-wiring routines.  We give a
shallow embedding of each routine that the claims touch:

* the delegated-event-dispatch utility (`utils.delegatedEventListener`,
  `utils.selectorMatchingStrategy`, `utils.delegatedTargetSelectorEventListener`),
  modelled over a small DOM fragment (an element together with its ancestor
  chain, selector matching as membership in a per-node selector list);
* the slider controller (`goTo`, `next`, `previous` and the dot-click wiring),
  modelled as a state holding the selected index, the per-slide translateX
  percentages and the per-dot active flags;
* the tab controller, modelled as lists of (key, active) buttons and panels;
* the modal controller (`openModal`, `closeModal`, the keydown listener),
  modelled as the pair of hidden-class flags on the modal and the overlay;
* the lazy-image observer callback, modelled as a per-image record of the
  observed flag, the current and data sources, the lazy-img class and the
  registered load listener.

Effectful JS callbacks are embedded as state transformers; the handler built by
the dispatch utility threads the state through, the `null` branch of the
source's conditional being the identity on the state.
-/
import Mathlib

namespace Bankist

/-! ### DOM fragment for event delegation

`utils.selectorMatchingStrategy` uses `evt.target.matches(selector)` and
`evt.target.closest(selector)`.  A node records which selectors it matches; an
element is a node together with its chain of ancestors (nearest first), and
`closest` walks the element itself and then the chain, as in the DOM. -/

structure Node where
  nid : Nat
  selList : List String
deriving DecidableEq

def Node.matchesSel (n : Node) (selector : String) : Bool :=
  n.selList.contains selector

structure Elem where
  self : Node
  ancestorChain : List Node
deriving DecidableEq

def Elem.matchesSel (e : Elem) (selector : String) : Bool :=
  e.self.matchesSel selector

/-- `evt.target.closest(selector)`: the nearest self-or-ancestor node matching
the selector, if any. -/
def Elem.closest (e : Elem) (selector : String) : Option Node :=
  (e.self :: e.ancestorChain).find? (fun n => n.matchesSel selector)

structure Event where
  target : Elem
deriving DecidableEq

/-! ### utils.delegatedEventListener and friends (src/script.js lines 14-39)

The JS callback is effectful; we embed it as a state transformer
`Elem → Event → σ → σ` whose first argument is the value `this` is bound to.
The source handler is
`evt => matchingStrategy(evt) ? onCallback.call(evt.target, evt) : null`,
so the callback receives `evt.target` as `this` and the non-matching branch
leaves the state untouched. -/

def delegatedEventListener {σ : Type} (matchingStrategy : Event → Bool)
    (onCallback : Elem → Event → σ → σ) : Event → σ → σ :=
  fun evt s => if matchingStrategy evt then onCallback evt.target evt s else s

/-- `evt => evt.target.matches(selector) || !!evt.target.closest(selector)` -/
def selectorMatchingStrategy (selector : String) : Event → Bool :=
  fun evt => evt.target.matchesSel selector || (evt.target.closest selector).isSome

def delegatedTargetSelectorEventListener {σ : Type} (selector : String)
    (onCallback : Elem → Event → σ → σ) : Event → σ → σ :=
  delegatedEventListener (selectorMatchingStrategy selector) onCallback

/-- Instrumentation callback: records each invocation together with the element
`this` was bound to.  Used to observe when and how the utility invokes its
callback. -/
def logCallback : Elem → Event → List (Elem × Event) → List (Elem × Event) :=
  fun thisElem evt log => log ++ [(thisElem, evt)]

/-! ### utils.toggleClass (src/script.js lines 46-50)

Class presence is a Bool; `toggleClass` makes the class present exactly when
`isPresent` holds. -/

def toggleClass (isPresent : Bool) : Bool :=
  isPresent

end Bankist

namespace Bankist.Slider

/-! ### Slider controller (src/script.js lines 213-287)

`slides` and the generated dots both have length `N`.  After any `goTo` the
DOM-visible state is fully determined by the selected index: slide `j` carries
`translateX((j - selected) * 100 %)` and dot `j` carries the active class
exactly when `j = selected`. -/

structure SliderState where
  selectedSlide : Nat
  transforms : List Int
  dotsActive : List Bool
deriving DecidableEq

/-- `goTo(selected)`: set the selected slide, translate every slide by
`(index - selected) * 100` percent, and toggle each dot's active class on
`index === selected`. -/
def goTo (N : Nat) (selected : Nat) : SliderState :=
  { selectedSlide := selected
    transforms := (List.range N).map (fun (index : Nat) => ((index : Int) - (selected : Int)) * 100)
    dotsActive := (List.range N).map (fun index => toggleClass (index == selected)) }

/-- `next()`: `goTo((selectedSlide + 1) % slides.length)`. -/
def next (N : Nat) (st : SliderState) : SliderState :=
  goTo N ((st.selectedSlide + 1) % N)

/-- `previous()`: `goTo((selectedSlide === 0 ? slides.length : selectedSlide) - 1)`. -/
def previous (N : Nat) (st : SliderState) : SliderState :=
  goTo N ((if st.selectedSlide == 0 then N else st.selectedSlide) - 1)

/-- The reachable mutations of the slider state: prev/next buttons and arrow
keys call `previous`/`next`; clicking the dot tagged `k` calls `goTo(k)`.  The
dots are generated once, one per slide, tagged `0 .. N-1`. -/
inductive Op where
  | nextOp : Op
  | prevOp : Op
  | dotClick : Nat → Op
deriving DecidableEq

def applyOp (N : Nat) (st : SliderState) : Op → SliderState
  | Op.nextOp => next N st
  | Op.prevOp => previous N st
  | Op.dotClick k => goTo N k

def runOps (N : Nat) (st : SliderState) (ops : List Op) : SliderState :=
  ops.foldl (applyOp N) st

/-- Initialization: `goTo(0)`. -/
def init (N : Nat) : SliderState :=
  goTo N 0

end Bankist.Slider

namespace Bankist.Tabs

/-! ### Tab manager (src/script.js lines 141-167)

Buttons and panels are modelled as lists of `(key, active)` pairs: a button's
key is its `data-tab` value, a panel's key is the suffix of its
`operations__content--<key>` class; `active` is the presence of the
`--active` class.  The click handler removes the active class from every
button and every panel, then adds it to the clicked button and to the first
panel whose class matches the clicked button's key (`querySelector` returns
the first match, and throws if there is none: that case is `none`). -/

structure TabState where
  buttons : List (String × Bool)
  panels : List (String × Bool)
deriving DecidableEq

/-- `forEach(... classList.remove('--active'))` over a node list. -/
def clearActive (l : List (String × Bool)) : List (String × Bool) :=
  l.map (fun p => (p.1, false))

/-- `classList.add('--active')` on the element at position `i`; `none` if the
position is out of range. -/
def activateAt : List (String × Bool) → Nat → Option (List (String × Bool))
  | [], _ => none
  | p :: rest, 0 => some ((p.1, true) :: rest)
  | p :: rest, Nat.succ i => (activateAt rest i).map (fun l => p :: l)

/-- `querySelector(.operations__content--<key>).classList.add('--active')`:
activate the first panel carrying the key; `none` when the query finds no
panel (the JS would throw on `null`). -/
def activateFirst : List (String × Bool) → String → Option (List (String × Bool))
  | [], _ => none
  | p :: rest, key =>
    if p.1 == key then some ((p.1, true) :: rest)
    else (activateFirst rest key).map (fun l => p :: l)

/-- The delegated click handler, applied to a click on the button at position
`i` (the clicked element resolves to that button via `this.closest`). -/
def tabClick (st : TabState) (i : Nat) : Option TabState :=
  match (st.buttons.map Prod.fst)[i]? with
  | none => none
  | some key =>
    match activateAt (clearActive st.buttons) i with
    | none => none
    | some btns =>
      match activateFirst (clearActive st.panels) key with
      | none => none
      | some pnls => some { buttons := btns, panels := pnls }

/-- Number of elements carrying the active class. -/
def countActive (l : List (String × Bool)) : Nat :=
  l.countP (fun p => p.2)

end Bankist.Tabs

namespace Bankist.Modal

/-! ### Modal window management (src/script.js lines 56-81)

The state is the presence of the `hidden` class on the modal and on the
overlay.  `openModal` removes the class from both, `closeModal` adds it to
both; the keydown listener calls `closeModal` only when the key is Escape and
the modal does not carry the class. -/

structure ModalState where
  modalHidden : Bool
  overlayHidden : Bool
deriving DecidableEq

/-- `modal.classList.remove('hidden'); overlay.classList.remove('hidden')` -/
def openModal (_st : ModalState) : ModalState :=
  { modalHidden := false, overlayHidden := false }

/-- `modal.classList.add('hidden'); overlay.classList.add('hidden')` -/
def closeModal (_st : ModalState) : ModalState :=
  { modalHidden := true, overlayHidden := true }

/-- The document keydown listener:
`if (e.key === 'Escape' && !modal.classList.contains('hidden')) closeModal()`. -/
def keydownHandler (key : String) (st : ModalState) : ModalState :=
  if key == "Escape" && !st.modalHidden then closeModal st else st

/-- The registered triggers: the `.btn--show-modal` buttons call `openModal`;
the close button and the overlay call `closeModal`; a keydown runs the
listener above. -/
inductive Op where
  | openBtnClick : Op
  | closeBtnClick : Op
  | overlayClick : Op
  | keydown : String → Op
deriving DecidableEq

def applyOp (st : ModalState) : Op → ModalState
  | Op.openBtnClick => openModal st
  | Op.closeBtnClick => closeModal st
  | Op.overlayClick => closeModal st
  | Op.keydown key => keydownHandler key st

def runOps (st : ModalState) (ops : List Op) : ModalState :=
  ops.foldl applyOp st

end Bankist.Modal

namespace Bankist.Lazy

/-! ### Image lazy loading (src/script.js lines 190-208)

Per-image state: whether the observer still observes the image, the current
`src`, the `data-src` attribute, the presence of the `lazy-img` class, and
whether a `load` listener has been registered.  An intersection notification
is delivered only while the image is observed (after `unobserve` the observer
never fires for it again); when delivered with `isIntersecting` the callback
unobserves the image, copies `data-src` into `src` and registers the load
listener.  The load listener removes the `lazy-img` class. -/

structure ImageState where
  observed : Bool
  src : String
  dataSrc : String
  lazyImgClass : Bool
  loadListenerActive : Bool
deriving DecidableEq

/-- One intersection notification for the image.  The `img.observed` guard is
the observer's delivery semantics: `unobserve` is a permanent unsubscription,
so the callback body only ever runs for an observed image. -/
def intersectionStep (img : ImageState) (isIntersecting : Bool) : ImageState :=
  if img.observed && isIntersecting then
    { img with observed := false, src := img.dataSrc, loadListenerActive := true }
  else img

def runIntersections (img : ImageState) (notifs : List Bool) : ImageState :=
  notifs.foldl intersectionStep img

/-- The browser's `load` event on the image:
`imageElt.classList.remove('lazy-img')` if (and only if) the listener was
registered by the intersection callback. -/
def loadStep (img : ImageState) : ImageState :=
  if img.loadListenerActive then { img with lazyImgClass := false } else img

end Bankist.Lazy

namespace Bankist

/-! ### Concrete fixtures

A click whose target is a plain node inside a `btn` element: the target itself
matches no selector, but its parent matches `"btn"`, so `closest` finds the
parent while `matches` fails on the target. -/

def plainNode : Node :=
  ⟨0, []⟩

def btnNode : Node :=
  ⟨1, ["btn"]⟩

def innerElem : Elem :=
  ⟨plainNode, [btnNode]⟩

def innerClickEvent : Event :=
  ⟨innerElem⟩

end Bankist

/-! ## Theorems -/

namespace Bankist

/-- Claim C1, counterexample.  For the selector `"btn"` and a click whose
target sits inside a `btn` element without itself matching the selector, the
handler built by `delegatedTargetSelectorEventListener` does invoke the
callback (the predicate holds through `closest`), but `this` is bound to the
event target, an element that does not satisfy the selector; the matched
element found by `closest` is the parent, not the element `this` refers to.
This refutes the claim that the callback is bound so that `this` refers to
the matched element. -/
theorem C1_counterexample :
    delegatedTargetSelectorEventListener "btn" logCallback innerClickEvent []
        = [(innerElem, innerClickEvent)]
    ∧ selectorMatchingStrategy "btn" innerClickEvent = true
    ∧ Elem.matchesSel innerElem "btn" = false
    ∧ Elem.closest innerElem "btn" = some btnNode
    ∧ btnNode ≠ innerElem.self := by
  refine ⟨rfl, by decide, by decide, by decide, by decide⟩

/-- Claim C1 (amended).  The handler returned by the delegated dispatch
utility invokes the callback exactly when the predicate holds on the event,
and when invoked the callback is bound so that, within it, `this` refers to
the event's target (which satisfies the selector only when the target itself
matches; when only an ancestor matches, `this` is still the non-matching
target); a non-matching event invokes nothing and has no side effect.  The
first conjunct shows the dispatch on an arbitrary callback and state; the
second, instrumented with `logCallback`, shows the callback fires exactly
once on a matching event with `this` bound to the target, and not at all
otherwise. -/
theorem C1_delegated_dispatch {σ : Type} (selector : String) (evt : Event)
    (onCallback : Elem → Event → σ → σ) (s : σ) :
    delegatedTargetSelectorEventListener selector onCallback evt s
        = (if selectorMatchingStrategy selector evt then onCallback evt.target evt s else s)
    ∧ delegatedTargetSelectorEventListener selector logCallback evt []
        = (if selectorMatchingStrategy selector evt then [(evt.target, evt)] else []) := by
  constructor
  · rfl
  · by_cases h : selectorMatchingStrategy selector evt
    · simp [delegatedTargetSelectorEventListener, delegatedEventListener, logCallback, h]
    · simp [delegatedTargetSelectorEventListener, delegatedEventListener, logCallback, h]

end Bankist

namespace Bankist.Modal

/-- Claim C7.  When the modal carries the hidden class, the Escape keydown is
a strict no-op (state returned unchanged); from any open state (hidden class
absent on the modal), an overlay click, a close-button click, or an Escape
keydown each transition the modal to closed, with the hidden class present on
both the modal and the overlay.  The two click paths close unconditionally,
hence in particular from every open state. -/
theorem C7_close_paths (st : ModalState) :
    (st.modalHidden = true → keydownHandler "Escape" st = st)
    ∧ applyOp st Op.overlayClick = ModalState.mk true true
    ∧ applyOp st Op.closeBtnClick = ModalState.mk true true
    ∧ (st.modalHidden = false →
        applyOp st (Op.keydown "Escape") = ModalState.mk true true) := by
  refine ⟨?_, rfl, rfl, ?_⟩
  · intro h
    simp [keydownHandler, h]
  · intro h
    simp [applyOp, keydownHandler, h, closeModal]

/-- Witness for C7: concrete closed and open states. -/
theorem C7_witness :
    ((ModalState.mk true true).modalHidden = true
      ∧ keydownHandler "Escape" (ModalState.mk true true) = ModalState.mk true true)
    ∧ ((ModalState.mk false true).modalHidden = false
      ∧ applyOp (ModalState.mk false true) (Op.keydown "Escape") = ModalState.mk true true) :=
  ⟨⟨rfl, (C7_close_paths (ModalState.mk true true)).1 rfl⟩,
    ⟨rfl, (C7_close_paths (ModalState.mk false true)).2.2.2 rfl⟩⟩

/-- Claim C9.  The modal and the overlay always agree on visibility: if they
start with the hidden class in the same state, then after any sequence of
registered modal operations (open-button click, close-button click, overlay
click, arbitrary keydowns) the modal carries the hidden class exactly when
the overlay does. -/
theorem C9_modal_overlay_agree (st : ModalState) (ops : List Op)
    (h : st.modalHidden = st.overlayHidden) :
    (runOps st ops).modalHidden = (runOps st ops).overlayHidden := by
  induction ops generalizing st with
  | nil => exact h
  | cons op rest ih =>
    have hstep : (applyOp st op).modalHidden = (applyOp st op).overlayHidden := by
      cases op with
      | openBtnClick => rfl
      | closeBtnClick => rfl
      | overlayClick => rfl
      | keydown key =>
        simp only [applyOp, keydownHandler]
        split
        · rfl
        · exact h
    exact ih (applyOp st op) hstep

/-- Witness for C9: both hidden initially, then an open click followed by an
Escape keydown. -/
theorem C9_witness :
    (ModalState.mk true true).modalHidden = (ModalState.mk true true).overlayHidden
    ∧ (runOps (ModalState.mk true true) [Op.openBtnClick, Op.keydown "Escape"]).modalHidden
        = (runOps (ModalState.mk true true) [Op.openBtnClick, Op.keydown "Escape"]).overlayHidden :=
  ⟨rfl, C9_modal_overlay_agree (ModalState.mk true true)
      [Op.openBtnClick, Op.keydown "Escape"] rfl⟩

/-- Claim C10.  `openModal` on an already-open state and `closeModal` on an
already-closed state (reached through the close button, the overlay, or the
Escape path, which all call `closeModal`) leave the class state exactly
unchanged; both operations are also idempotent under composition
unconditionally. -/
theorem C10_idempotent (st : ModalState) :
    (st.modalHidden = false → st.overlayHidden = false → openModal st = st)
    ∧ (st.modalHidden = true → st.overlayHidden = true →
        closeModal st = st
        ∧ applyOp st Op.closeBtnClick = st
        ∧ applyOp st Op.overlayClick = st
        ∧ applyOp st (Op.keydown "Escape") = st)
    ∧ openModal (openModal st) = openModal st
    ∧ closeModal (closeModal st) = closeModal st := by
  obtain ⟨m, o⟩ := st
  refine ⟨?_, ?_, rfl, rfl⟩
  · intro h1 h2
    subst h1; subst h2; rfl
  · intro h1 h2
    subst h1; subst h2
    refine ⟨rfl, rfl, rfl, ?_⟩
    simp [applyOp, keydownHandler]

/-- Witness for C10: the concrete open and closed states. -/
theorem C10_witness :
    openModal (ModalState.mk false false) = ModalState.mk false false
    ∧ closeModal (ModalState.mk true true) = ModalState.mk true true :=
  ⟨(C10_idempotent (ModalState.mk false false)).1 rfl rfl,
    ((C10_idempotent (ModalState.mk true true)).2.1 rfl rfl).1⟩

end Bankist.Modal

namespace Bankist.Slider

/-- After any `goTo`, the selected index is the argument. -/
theorem goTo_selectedSlide (N i : Nat) : (goTo N i).selectedSlide = i :=
  rfl

/-- Iterating `next` advances the selected index modulo `N`. -/
theorem next_iterate_selectedSlide (N s : Nat) (hs : s < N) (k : Nat) :
    ((next N)^[k] (goTo N s)).selectedSlide = (s + k) % N := by
  induction k with
  | zero =>
    simpa using (Nat.mod_eq_of_lt hs).symm
  | succ k ih =>
    rw [Function.iterate_succ_apply']
    show (((next N)^[k] (goTo N s)).selectedSlide + 1) % N = (s + (k + 1)) % N
    rw [ih, Nat.mod_add_mod, Nat.add_assoc]

/-- Claim C5.  `next()` sets the selected index to `(s + 1) mod N`, and
applying `next()` `N` times from any starting index `s` in `[0, N)` returns
the selected index to `s`: `next` is cyclic of order dividing `N`. -/
theorem C5_next_cyclic (N s : Nat) (_hN : 1 ≤ N) (hs : s < N) :
    (next N (goTo N s)).selectedSlide = (s + 1) % N
    ∧ ((next N)^[N] (goTo N s)).selectedSlide = s := by
  refine ⟨rfl, ?_⟩
  rw [next_iterate_selectedSlide N s hs N, Nat.add_mod_right, Nat.mod_eq_of_lt hs]

/-- Witness for C5: four slides, starting at index 2. -/
theorem C5_witness :
    1 ≤ 4 ∧ 2 < 4
    ∧ (next 4 (goTo 4 2)).selectedSlide = (2 + 1) % 4
    ∧ ((next 4)^[4] (goTo 4 2)).selectedSlide = 2 :=
  ⟨by decide, by decide,
    (C5_next_cyclic 4 2 (by decide) (by decide)).1,
    (C5_next_cyclic 4 2 (by decide) (by decide)).2⟩

/-- Claim C6.  For every slide count `N ≥ 1` and index `s` in `[0, N)`,
`previous()` after `next()` and `next()` after `previous()` both restore the
selected index to `s`, where `previous()` sets the index to `N - 1` when the
index is `0` and decrements it otherwise. -/
theorem C6_prev_next_inverse (N s : Nat) (hN : 1 ≤ N) (hs : s < N) :
    (previous N (next N (goTo N s))).selectedSlide = s
    ∧ (next N (previous N (goTo N s))).selectedSlide = s
    ∧ (previous N (goTo N s)).selectedSlide = (if s = 0 then N - 1 else s - 1) := by
  refine ⟨?_, ?_, ?_⟩
  · show (if ((s + 1) % N == 0) then N else (s + 1) % N) - 1 = s
    by_cases h : s + 1 = N
    · rw [h, Nat.mod_self]
      simp
      omega
    · have h1 : (s + 1) % N = s + 1 := Nat.mod_eq_of_lt (by omega)
      rw [h1]
      have h2 : ((s + 1 : Nat) == 0) = false := by
        simp
      rw [h2]
      simp
  · show ((if (s == 0) then N else s) - 1 + 1) % N = s
    by_cases h : s = 0
    · subst h
      simp only [beq_self_eq_true, if_true]
      rw [Nat.sub_add_cancel hN, Nat.mod_self]
    · have h2 : ((s : Nat) == 0) = false := by
        simp [h]
      rw [h2]
      simp only [Bool.false_eq_true, if_false]
      rw [Nat.sub_add_cancel (by omega), Nat.mod_eq_of_lt hs]
  · show (if (s == 0) then N else s) - 1 = (if s = 0 then N - 1 else s - 1)
    by_cases h : s = 0
    · simp [h]
    · simp [h]

/-- Exactly one entry of the generated dot row is active. -/
theorem count_true_range_beq (N i : Nat) (hi : i < N) :
    ((List.range N).map (fun j => j == i)).count true = 1 := by
  calc ((List.range N).map (fun j => j == i)).count true
      = ((List.range N).map (fun j => j == i)).countP (fun b => b == true) := rfl
    _ = (List.range N).countP (fun j => ((j == i) == true)) := List.countP_map ..
    _ = (List.range N).countP (fun j => j == i) := by simp
    _ = (List.range N).count i := rfl
    _ = 1 := List.count_eq_one_of_mem (List.nodup_range N) (List.mem_range.mpr hi)

/-- Claim C2.  After `goTo(i)` with `i` in `[0, N)`: the selected index is
`i`; there are `N` slide transforms and `N` dots; every slide at index `j`
carries the horizontal translation `(j - i) * 100` percent, so slide `i`
sits at zero offset and every other slide at a nonzero multiple of 100;
dot `j` is active exactly when `j = i`, and exactly one dot is active. -/
theorem C2_goTo_renders (N i : Nat) (hi : i < N) :
    (goTo N i).selectedSlide = i
    ∧ (goTo N i).transforms.length = N
    ∧ (∀ j, j < N →
        (goTo N i).transforms[j]? = some (((j : Int) - (i : Int)) * 100))
    ∧ (goTo N i).transforms[i]? = some 0
    ∧ (∀ j, j < N → j ≠ i →
        ∃ m : Int, m ≠ 0 ∧ (goTo N i).transforms[j]? = some (m * 100))
    ∧ (goTo N i).dotsActive.length = N
    ∧ (∀ j, j < N → (goTo N i).dotsActive[j]? = some (j == i))
    ∧ (goTo N i).dotsActive[i]? = some true
    ∧ (goTo N i).dotsActive.count true = 1 := by
  have htr : ∀ j, j < N →
      (goTo N i).transforms[j]? = some (((j : Int) - (i : Int)) * 100) := by
    intro j hj
    show ((List.range N).map fun (index : Nat) => ((index : Int) - (i : Int)) * 100)[j]? = _
    rw [List.getElem?_map, List.getElem?_range hj, Option.map_some']
  have hdot : ∀ j, j < N → (goTo N i).dotsActive[j]? = some (j == i) := by
    intro j hj
    show ((List.range N).map fun index => toggleClass (index == i))[j]? = _
    rw [List.getElem?_map, List.getElem?_range hj, Option.map_some']
    rfl
  have hlen1 : (goTo N i).transforms.length = N := by
    show ((List.range N).map fun (index : Nat) => ((index : Int) - (i : Int)) * 100).length = N
    rw [List.length_map, List.length_range]
  have hlen2 : (goTo N i).dotsActive.length = N := by
    show ((List.range N).map fun index => toggleClass (index == i)).length = N
    rw [List.length_map, List.length_range]
  refine ⟨rfl, hlen1, htr, ?_, ?_, hlen2, hdot, ?_, ?_⟩
  · rw [htr i hi]
    simp
  · intro j hj hne
    refine ⟨(j : Int) - (i : Int), ?_, htr j hj⟩
    omega
  · rw [hdot i hi]
    simp
  · show ((List.range N).map (fun index => toggleClass (index == i))).count true = 1
    exact count_true_range_beq N i hi

/-- Witness for C2: three slides, go to index 1. -/
theorem C2_witness :
    1 < 3
    ∧ ((goTo 3 1).selectedSlide = 1
    ∧ (goTo 3 1).transforms.length = 3
    ∧ (∀ j : Nat, j < 3 →
        (goTo 3 1).transforms[j]? = some (((j : Int) - ((1 : Nat) : Int)) * 100))
    ∧ (goTo 3 1).transforms[(1 : Nat)]? = some 0
    ∧ (∀ j : Nat, j < 3 → j ≠ 1 →
        ∃ m : Int, m ≠ 0 ∧ (goTo 3 1).transforms[j]? = some (m * 100))
    ∧ (goTo 3 1).dotsActive.length = 3
    ∧ (∀ j : Nat, j < 3 → (goTo 3 1).dotsActive[j]? = some (j == 1))
    ∧ (goTo 3 1).dotsActive[(1 : Nat)]? = some true
    ∧ (goTo 3 1).dotsActive.count true = 1) :=
  ⟨by decide, C2_goTo_renders 3 1 (by decide)⟩

/-- Every single reachable mutation preserves membership of the selected
index in `[0, N)`, provided a dot click carries an in-range encoded index. -/
theorem applyOp_selected_lt (N : Nat) (hN : 1 ≤ N) (st : SliderState) (op : Op)
    (hst : st.selectedSlide < N) (hop : ∀ k, op = Op.dotClick k → k < N) :
    (applyOp N st op).selectedSlide < N := by
  cases op with
  | nextOp =>
    show (st.selectedSlide + 1) % N < N
    exact Nat.mod_lt _ hN
  | prevOp =>
    show (if (st.selectedSlide == 0) then N else st.selectedSlide) - 1 < N
    by_cases h : st.selectedSlide = 0
    · simp [h]
      omega
    · have hb : ((st.selectedSlide : Nat) == 0) = false := by
        simp [h]
      rw [hb]
      simp only [Bool.false_eq_true, if_false]
      omega
  | dotClick k =>
    exact hop k rfl

theorem runOps_selected_lt (N : Nat) (hN : 1 ≤ N) (ops : List Op) (st : SliderState)
    (hst : st.selectedSlide < N) (hops : ∀ k, Op.dotClick k ∈ ops → k < N) :
    (runOps N st ops).selectedSlide < N := by
  induction ops generalizing st with
  | nil => exact hst
  | cons op rest ih =>
    show (runOps N (applyOp N st op) rest).selectedSlide < N
    refine ih (applyOp N st op) ?_ ?_
    · refine applyOp_selected_lt N hN st op hst ?_
      intro k hk
      refine hops k ?_
      rw [hk]
      exact List.mem_cons_self _ _
    · intro k hk
      exact hops k (List.mem_cons_of_mem _ hk)

/-- Claim C3.  For every slide count `N ≥ 1`, the selected index starts at 0
(`goTo(0)` at initialization) and stays an integer in `[0, N)` under every
sequence of reachable mutations: next, previous, and dot-click `goTo` with
the dot's encoded index (the generated dots carry indices below `N`).  No
bounds-violation path exists. -/
theorem C3_selected_in_bounds (N : Nat) (hN : 1 ≤ N) (ops : List Op)
    (hops : ∀ k, Op.dotClick k ∈ ops → k < N) :
    (init N).selectedSlide = 0
    ∧ (runOps N (init N) ops).selectedSlide < N := by
  refine ⟨rfl, ?_⟩
  refine runOps_selected_lt N hN ops (init N) ?_ hops
  show (0 : Nat) < N
  omega

/-- Witness for C3: two slides and a mixed run of all mutation kinds. -/
theorem C3_witness :
    1 ≤ 2
    ∧ (∀ k, Op.dotClick k ∈ [Op.nextOp, Op.dotClick 1, Op.prevOp, Op.prevOp] → k < 2)
    ∧ (init 2).selectedSlide = 0
    ∧ (runOps 2 (init 2) [Op.nextOp, Op.dotClick 1, Op.prevOp, Op.prevOp]).selectedSlide < 2 := by
  have hops : ∀ k, Op.dotClick k ∈ [Op.nextOp, Op.dotClick 1, Op.prevOp, Op.prevOp] → k < 2 := by
    intro k hk
    simp at hk
    omega
  exact ⟨by decide, hops,
    (C3_selected_in_bounds 2 (by decide) [Op.nextOp, Op.dotClick 1, Op.prevOp, Op.prevOp] hops).1,
    (C3_selected_in_bounds 2 (by decide) [Op.nextOp, Op.dotClick 1, Op.prevOp, Op.prevOp] hops).2⟩

/-- Witness for C6: three slides, starting at the wrap point index 0. -/
theorem C6_witness :
    1 ≤ 3 ∧ 0 < 3
    ∧ (previous 3 (next 3 (goTo 3 0))).selectedSlide = 0
    ∧ (next 3 (previous 3 (goTo 3 0))).selectedSlide = 0 :=
  ⟨by decide, by decide,
    (C6_prev_next_inverse 3 0 (by decide) (by decide)).1,
    (C6_prev_next_inverse 3 0 (by decide) (by decide)).2.1⟩

end Bankist.Slider

namespace Bankist.Lazy

/-- Once an image is unobserved, the observer delivers nothing for it: every
further sequence of intersection notifications leaves its state untouched. -/
theorem runIntersections_unobserved (img : ImageState) (h : img.observed = false)
    (notifs : List Bool) : runIntersections img notifs = img := by
  induction notifs with
  | nil => rfl
  | cons b rest ih =>
    show rest.foldl intersectionStep (intersectionStep img b) = img
    have hstep : intersectionStep img b = img := by
      simp [intersectionStep, h]
    rw [hstep]
    exact ih

/-- Claim C8.  For an observed lazy image, the first intersecting notification
unobserves it, copies the `data-src` attribute into `src`, and registers the
load listener; every subsequent sequence of notifications changes nothing
(the source in particular stays at the real source).  No intersection
notification ever touches the lazy-img placeholder class or the `data-src`
attribute; the class is removed exactly by the load event once the listener
is registered, and a load event with no registered listener changes
nothing. -/
theorem C8_lazy_one_shot (img : ImageState) (b : Bool) (notifs : List Bool) :
    (img.observed = true →
      intersectionStep img true
        = { img with observed := false, src := img.dataSrc, loadListenerActive := true })
    ∧ (img.observed = false → runIntersections img notifs = img)
    ∧ (intersectionStep img b).lazyImgClass = img.lazyImgClass
    ∧ (intersectionStep img b).dataSrc = img.dataSrc
    ∧ (img.observed = true →
        (runIntersections (intersectionStep img true) notifs).src = img.dataSrc
        ∧ (runIntersections (intersectionStep img true) notifs).observed = false)
    ∧ (img.loadListenerActive = true →
        (loadStep img).lazyImgClass = false ∧ (loadStep img).src = img.src)
    ∧ (img.loadListenerActive = false → loadStep img = img) := by
  refine ⟨?_, ?_, ?_, ?_, ?_, ?_, ?_⟩
  · intro h
    simp [intersectionStep, h]
  · intro h
    exact runIntersections_unobserved img h notifs
  · simp only [intersectionStep]
    split <;> rfl
  · simp only [intersectionStep]
    split <;> rfl
  · intro h
    have hfirst : intersectionStep img true
        = { img with observed := false, src := img.dataSrc, loadListenerActive := true } := by
      simp [intersectionStep, h]
    rw [hfirst, runIntersections_unobserved _ rfl notifs]
    exact ⟨rfl, rfl⟩
  · intro h
    simp [loadStep, h]
  · intro h
    simp [loadStep, h]

/-- Witness for C8: a concrete observed placeholder image, a non-intersecting
notification flag, and three follow-up notifications after the first hit. -/
theorem C8_witness :
    (ImageState.mk true "placeholder.jpg" "real.jpg" true false).observed = true
    ∧ intersectionStep (ImageState.mk true "placeholder.jpg" "real.jpg" true false) true
        = ImageState.mk false "real.jpg" "real.jpg" true true
    ∧ (runIntersections
        (intersectionStep (ImageState.mk true "placeholder.jpg" "real.jpg" true false) true)
        [true, false, true]).src = "real.jpg" := by
  refine ⟨rfl, ?_, ?_⟩
  · exact (C8_lazy_one_shot (ImageState.mk true "placeholder.jpg" "real.jpg" true false)
      false [true, false, true]).1 rfl
  · exact ((C8_lazy_one_shot (ImageState.mk true "placeholder.jpg" "real.jpg" true false)
      false [true, false, true]).2.2.2.2.1 rfl).1

end Bankist.Lazy

namespace Bankist.Tabs

/-- Clearing turns every active flag off. -/
theorem mem_clearActive_eq_false (l : List (String × Bool)) :
    ∀ q ∈ clearActive l, q.2 = false := by
  intro q hq
  simp only [clearActive, List.mem_map] at hq
  obtain ⟨p, -, rfl⟩ := hq
  rfl

theorem countActive_clearActive (l : List (String × Bool)) :
    countActive (clearActive l) = 0 := by
  induction l with
  | nil => rfl
  | cons p rest ih =>
    show countActive ((p.1, false) :: clearActive rest) = 0
    simp only [countActive, List.countP_cons] at ih ⊢
    simp [ih]

/-- Activating position `i` after clearing: the result exists whenever the
position is in range, carries exactly one active flag (at position `i`, with
the clicked button's key), and keeps all keys. -/
theorem activateAt_clearActive (l : List (String × Bool)) (i : Nat) (k : String)
    (hk : (l.map Prod.fst)[i]? = some k) :
    ∃ l', activateAt (clearActive l) i = some l'
      ∧ countActive l' = 1
      ∧ l'[i]? = some (k, true)
      ∧ (∀ j q, j ≠ i → l'[j]? = some q → q.2 = false)
      ∧ l'.map Prod.fst = l.map Prod.fst := by
  induction l generalizing i with
  | nil => simp at hk
  | cons p rest ih =>
    cases i with
    | zero =>
      have hpk : p.1 = k := by
        simpa using hk
      refine ⟨(p.1, true) :: clearActive rest, rfl, ?_, ?_, ?_, ?_⟩
      · show countActive ((p.1, true) :: clearActive rest) = 1
        simp only [countActive, List.countP_cons]
        have h0 := countActive_clearActive rest
        simp only [countActive] at h0
        simp [h0]
      · simp [hpk]
      · intro j q hj hq
        cases j with
        | zero => exact absurd rfl hj
        | succ j =>
          rw [List.getElem?_cons_succ] at hq
          exact mem_clearActive_eq_false rest q (List.getElem?_mem hq)
      · show p.1 :: (clearActive rest).map Prod.fst = p.1 :: rest.map Prod.fst
        simp [clearActive, Function.comp]
    | succ i =>
      have hk' : (rest.map Prod.fst)[i]? = some k := by
        simpa using hk
      obtain ⟨l', h1, h2, h3, h4, h5⟩ := ih i hk'
      refine ⟨(p.1, false) :: l', ?_, ?_, ?_, ?_, ?_⟩
      · show (activateAt (clearActive rest) i).map (fun l => (p.1, false) :: l) = _
        rw [h1, Option.map_some']
      · show countActive ((p.1, false) :: l') = 1
        simp only [countActive, List.countP_cons] at h2 ⊢
        simp [h2]
      · rw [List.getElem?_cons_succ]
        exact h3
      · intro j q hj hq
        cases j with
        | zero =>
          simp only [List.getElem?_cons_zero, Option.some_inj] at hq
          rw [hq.symm]
        | succ j =>
          rw [List.getElem?_cons_succ] at hq
          exact h4 j q (fun hji => hj (by rw [hji])) hq
      · show p.1 :: l'.map Prod.fst = p.1 :: rest.map Prod.fst
        rw [h5]

/-- Activating the first panel whose key matches, after clearing: the result
exists whenever some panel carries the key, has exactly one active flag, and
every active entry carries the clicked key. -/
theorem activateFirst_clearActive (l : List (String × Bool)) (k : String)
    (hk : k ∈ l.map Prod.fst) :
    ∃ l', activateFirst (clearActive l) k = some l'
      ∧ countActive l' = 1
      ∧ (∀ q ∈ l', q.2 = true → q.1 = k) := by
  induction l with
  | nil => simp at hk
  | cons p rest ih =>
    by_cases hp : p.1 = k
    · refine ⟨(p.1, true) :: clearActive rest, ?_, ?_, ?_⟩
      · show activateFirst ((p.1, false) :: clearActive rest) k = _
        simp [activateFirst, hp]
      · show countActive ((p.1, true) :: clearActive rest) = 1
        simp only [countActive, List.countP_cons]
        have h0 := countActive_clearActive rest
        simp only [countActive] at h0
        simp [h0]
      · intro q hq hq2
        rcases List.mem_cons.mp hq with h | h
        · rw [h, hp]
        · exact absurd hq2 (by simp [mem_clearActive_eq_false rest q h])
    · have hk' : k ∈ rest.map Prod.fst := by
        rw [List.map_cons] at hk
        rcases List.mem_cons.mp hk with h | h
        · exact absurd h.symm hp
        · exact h
      obtain ⟨l', h1, h2, h3⟩ := ih hk'
      refine ⟨(p.1, false) :: l', ?_, ?_, ?_⟩
      · show activateFirst ((p.1, false) :: clearActive rest) k = _
        have hb : ((p.1 : String) == k) = false := by
          simp [hp]
        simp only [activateFirst, hb, Bool.false_eq_true, if_false]
        rw [h1, Option.map_some']
      · show countActive ((p.1, false) :: l') = 1
        simp only [countActive, List.countP_cons] at h2 ⊢
        simp [h2]
      · intro q hq hq2
        rcases List.mem_cons.mp hq with h | h
        · rw [h] at hq2
          exact absurd hq2 (by simp)
        · exact h3 q h hq2

/-- Claim C4.  After a tab-button click on the button at position `i` whose
`data-tab` key `k` also names a panel, the handler succeeds and in the
resulting state exactly one button carries the active button class — the
clicked one, at position `i`, with key `k`, every other button having been
deactivated — and exactly one panel carries the active panel class, and every
active panel's identifier equals the clicked button's key `k`. -/
theorem C4_tab_click_exclusive (st : TabState) (i : Nat) (k : String)
    (hb : (st.buttons.map Prod.fst)[i]? = some k)
    (hp : k ∈ st.panels.map Prod.fst) :
    ∃ st', tabClick st i = some st'
      ∧ countActive st'.buttons = 1
      ∧ countActive st'.panels = 1
      ∧ st'.buttons[i]? = some (k, true)
      ∧ (∀ j q, j ≠ i → st'.buttons[j]? = some q → q.2 = false)
      ∧ (∀ q ∈ st'.panels, q.2 = true → q.1 = k) := by
  obtain ⟨btns, hb1, hb2, hb3, hb4, _⟩ := activateAt_clearActive st.buttons i k hb
  obtain ⟨pnls, hp1, hp2, hp3⟩ := activateFirst_clearActive st.panels k hp
  refine ⟨TabState.mk btns pnls, ?_, hb2, hp2, hb3, hb4, hp3⟩
  simp only [tabClick, hb, hb1, hp1]

/-- Witness for C4: three buttons and three panels keyed 1..3, panel 2 active
initially, click on the first button. -/
theorem C4_witness :
    (([("1", false), ("2", true), ("3", false)].map Prod.fst)[0]? = some "1"
      ∧ "1" ∈ [("1", false), ("2", true), ("3", false)].map Prod.fst)
    ∧ ∃ st', tabClick (TabState.mk
          [("1", false), ("2", true), ("3", false)]
          [("1", false), ("2", true), ("3", false)]) 0 = some st'
      ∧ countActive st'.buttons = 1
      ∧ countActive st'.panels = 1
      ∧ st'.buttons[0]? = some ("1", true)
      ∧ (∀ j q, j ≠ 0 → st'.buttons[j]? = some q → q.2 = false)
      ∧ (∀ q ∈ st'.panels, q.2 = true → q.1 = "1") :=
  ⟨⟨by decide, by decide⟩,
    C4_tab_click_exclusive (TabState.mk
      [("1", false), ("2", true), ("3", false)]
      [("1", false), ("2", true), ("3", false)]) 0 "1" (by decide) (by decide)⟩

end Bankist.Tabs
